import Mathlib

/-!
Shallow embedding of `src/mma.py` (MouseMonitor): the activity/idle state
machine, the monitor loop, and the synthetic-motion engine.

Modelling conventions:
* `time.time()` values and pixel coordinates are rationals (`ℚ`); the Python
  floats are modelled exactly.
* The single `MouseMonitor` instance's mutable fields form `MMState`.
  The spec's names map to the source's fields:
  `last_real_activity_time` = `last_activity_time`,
  `last_known_position` = `last_position`, `simulating` = `is_auto_moving`,
  `last_synthetic_position` = `last_auto_position`,
  `last_synthetic_time` = `last_auto_move_time`,
  `synthetic_in_progress` = `is_auto_move_in_progress`.
* The auto-move thread object is modelled by `thread_alive` (the
  `auto_move_thread is None or not is_alive()` check) plus a spawn counter
  `threads_spawned` recording each `threading.Thread(...).start()`.
* Each Python callback/method becomes a function from the pre-state (plus the
  `time.time()` reading `now` and the event payload) to the post-state.
* Calls that may raise in Python take their outcome as an `Except Unit _`
  argument and are proved to swallow the error (`Except.isOk`).
-/

namespace MMA

/-- Mutable fields of the `MouseMonitor` object (`src/mma.py`, `__init__`). -/
structure MMState where
  last_position : Option (ℚ × ℚ)
  last_activity_time : ℚ
  is_auto_moving : Bool
  last_auto_position : Option (ℚ × ℚ)
  last_auto_move_time : Option ℚ
  is_auto_move_in_progress : Bool
  idle_threshold : ℚ
  thread_alive : Bool
  threads_spawned : ℕ
  deriving DecidableEq, Repr

/-- Initial state built by `MouseMonitor.__init__` at start time `t0`:
`last_position = None`, `last_activity_time = time.time()`, flags cleared,
`idle_threshold = 5`, no auto-move thread. -/
def mmInit (t0 : ℚ) : MMState :=
  { last_position := none
    last_activity_time := t0
    is_auto_moving := false
    last_auto_position := none
    last_auto_move_time := none
    is_auto_move_in_progress := false
    idle_threshold := 5
    thread_alive := false
    threads_spawned := 0 }

/-- `MouseMonitor.on_activity` (lines 145-151): record `now` as the last
activity time and, if auto-moving, stop it. -/
def on_activity (s : MMState) (now : ℚ) : MMState :=
  { s with
    last_activity_time := now
    is_auto_moving := if s.is_auto_moving then false else s.is_auto_moving }

/-- The echo-filter condition of `MouseMonitor.on_move` (lines 161-170):
`last_auto_move_time` is set and less than 1.0 s old, `last_auto_position`
is set, and the squared distance `dx*dx + dy*dy` to it is `< 100`
(i.e. Euclidean distance `< 10` px, computed without `sqrt`). -/
def echoCheck (s : MMState) (now x y : ℚ) : Bool :=
  match s.last_auto_move_time with
  | none => false
  | some tA =>
    if now - tA < 1 then
      match s.last_auto_position with
      | none => false
      | some a => decide ((x - a.1) * (x - a.1) + (y - a.2) * (y - a.2) < 100)
    else false

/-- `MouseMonitor.on_move` (lines 153-182): discard when
`is_auto_move_in_progress`; discard echoes of a recent auto-move; otherwise
(re-checking the in-progress flag under the lock) record a real manual
movement: update `last_position`, `last_activity_time`, and stop auto-moving. -/
def on_move (s : MMState) (now x y : ℚ) : MMState :=
  if s.is_auto_move_in_progress then s
  else if echoCheck s now x y then s
  else if s.is_auto_move_in_progress then s
  else
    { s with
      last_position := some (x, y)
      last_activity_time := now
      is_auto_moving := if s.is_auto_moving then false else s.is_auto_moving }

/-- `MouseMonitor.on_click` (lines 184-187): only a button press
(`pressed = true`) counts as activity; a release is ignored. -/
def on_click (s : MMState) (now : ℚ) (_x _y : ℚ) (_button : ℕ)
    (pressed : Bool) : MMState :=
  if pressed then on_activity s now else s

/-- `MouseMonitor.on_scroll` (lines 189-191): every scroll counts as
activity. -/
def on_scroll (s : MMState) (now : ℚ) (_x _y _dx _dy : ℚ) : MMState :=
  on_activity s now

/-- `MouseMonitor.on_key_press` (lines 193-197): every key press counts as
activity; the callback returns `True` to keep listening. -/
def on_key_press (s : MMState) (now : ℚ) (_key : ℕ) : MMState × Bool :=
  (on_activity s now, true)

/-- `MouseMonitor.start_auto_moving` (lines 464-475): if not already
auto-moving, set the flag, clear the auto-move tracking fields, and start a
new thread when none is alive (otherwise reuse the running one). -/
def start_auto_moving (s : MMState) : MMState :=
  if s.is_auto_moving then s
  else
    let s' : MMState :=
      { s with
        is_auto_moving := true
        last_auto_position := none
        last_auto_move_time := none }
    if s'.thread_alive then s'
    else { s' with thread_alive := true, threads_spawned := s'.threads_spawned + 1 }

/-- `MouseMonitor.stop_auto_moving` (lines 477-484): if auto-moving, clear
all auto-move flags and tracking fields. -/
def stop_auto_moving (s : MMState) : MMState :=
  if s.is_auto_moving then
    { s with
      is_auto_moving := false
      is_auto_move_in_progress := false
      last_auto_position := none
      last_auto_move_time := none }
  else s

/-- One iteration of `MouseMonitor.monitor_loop` (lines 486-500) at wall
time `now`: compare idle time to `idle_threshold` and start or stop
auto-movement. -/
def monitor_check (s : MMState) (now : ℚ) : MMState :=
  if now - s.last_activity_time ≥ s.idle_threshold then
    if s.is_auto_moving then s else start_auto_moving s
  else
    if s.is_auto_moving then stop_auto_moving s else s

/-- An externally observable step of the monitor process: a genuine mouse
move delivered by the listener at time `t`, or one poll of `monitor_loop`
at time `t`. -/
inductive MMEvent where
  | move (t x y : ℚ)
  | poll (t : ℚ)
  deriving DecidableEq, Repr

/-- Apply one event to the state. -/
def stepEvent (s : MMState) : MMEvent → MMState
  | .move t x y => on_move s t x y
  | .poll t => monitor_check s t

/-- Run a trace of events from a state. -/
def runTrace (s : MMState) : List MMEvent → MMState
  | [] => s
  | e :: es => runTrace (stepEvent s e) es

/-- Consecutive move events in the trace are spaced at least `thr` apart
(`prev` is the time of the previous move, `none` before the first one). -/
def movesSpacedGe (thr : ℚ) : Option ℚ → List MMEvent → Bool
  | _, [] => true
  | none, .move t _ _ :: es => movesSpacedGe thr (some t) es
  | some t0, .move t _ _ :: es => decide (t - t0 ≥ thr) && movesSpacedGe thr (some t) es
  | p, .poll _ :: es => movesSpacedGe thr p es

/-- Trace of a continuously active user: every event (move or poll) happens
in chronological order and less than `thr` after the most recent genuine
move (`t0` is the time of the previous move, initially the start time). -/
def activeTrace (thr t0 : ℚ) : List MMEvent → Bool
  | [] => true
  | .move t _ _ :: es =>
      decide (t0 ≤ t) && decide (t - t0 < thr) && activeTrace thr t es
  | .poll t :: es =>
      decide (t0 ≤ t) && decide (t - t0 < thr) && activeTrace thr t0 es

/-- `MouseMonitor.get_mouse_position` (lines 199-224). Oracle arguments model
the fallible external calls: `apiAvailable` is `self.windows_api_available`
(the `hasattr` guard included), `pynputPos` the outcome of reading
`self.mouse_controller.position` (`.error` = an exception was raised),
`winQuery` the outcome of `GetCursorPos` (`.error` = exception;
`.ok (b, x, y)` = the call returned `b` having written `(x, y)`).
Always returns a coordinate pair; no exception escapes. -/
def get_mouse_position (apiAvailable : Bool)
    (pynputPos : Except Unit (ℚ × ℚ))
    (winQuery : Except Unit (Bool × ℚ × ℚ))
    (last_position : Option (ℚ × ℚ)) : ℚ × ℚ :=
  if !apiAvailable then
    match pynputPos with
    | .ok p => p
    | .error _ => (0, 0)
  else
    match winQuery with
    | .ok (b, px, py) =>
      if b then (px, py)
      else
        match last_position with
        | some p => p
        | none => (0, 0)
    | .error _ =>
      match last_position with
      | some p => p
      | none => (0, 0)

/-- `MouseMonitor.move_mouse_relative` (lines 246-277). `apiAvailable` is
`self.windows_api_available`; `sendInput` is the outcome of building the
INPUT structures and calling `SendInput` (`.error` = some ctypes call
raised; `.ok r` = `SendInput` returned `r`). The method returns a success
boolean on every path and never lets the exception escape. -/
def move_mouse_relative (apiAvailable : Bool)
    (sendInput : Except Unit ℕ) : Except Unit Bool :=
  if !apiAvailable then .ok false
  else
    match sendInput with
    | .ok r => .ok (decide (r = 1))
    | .error _ => .ok false

/-- The cubic ease-in-out curve of `natural_move` (line 355):
`eased_t = t * t * (3.0 - 2.0 * t)`. -/
def smoothstep (t : ℚ) : ℚ := t * t * (3 - 2 * t)

/-- The fractional progress `step_portion = eased_t - prev_t` assigned to
step `i` of a `steps`-step trajectory in `natural_move` (lines 353-359):
`smoothstep (i / steps) - smoothstep ((i - 1) / steps)`. Every step advances
this bookkeeping (`prev_t = eased_t` precedes the dead-zone test). -/
def stepPortion (steps i : ℕ) : ℚ :=
  smoothstep ((i : ℚ) / steps) - smoothstep (((i - 1 : ℕ) : ℚ) / steps)

/-- Squared Euclidean distance of the displacement `(tdx, tdy)`; the source
compares `math.sqrt (tdx*tdx + tdy*tdy)` against nonnegative bounds, which
is equivalent to comparing this square against the squared bounds. -/
def distSq (tdx tdy : ℚ) : ℚ := tdx * tdx + tdy * tdy

/-- Step-count buckets of `natural_move` (lines 337-344), keyed by squared
distance: `distance < 50 → 8`, `< 150 → 12`, `< 300 → 18`, else `25`. -/
def stepsForDistSq (dsq : ℚ) : ℕ :=
  if dsq < 2500 then 8
  else if dsq < 22500 then 12
  else if dsq < 90000 then 18
  else 25

/-- The per-step loop of `natural_move` (lines 347-387), accumulating the
relative deltas actually injected. `i` is the loop variable running to
`steps`, `rem` the number of iterations left (`steps - i + 1`), `prev_t` the
previous eased value. `alive i` is the value of `self.is_auto_moving` read
at the top of iteration `i` (loop breaks when false); `stepOk i` is the
success boolean returned by `move_mouse_relative` at step `i` (a failing
step is skipped, the loop continues). Steps whose delta is below the 0.1 px
dead-zone are skipped without injection but still advance `prev_t`. -/
def naturalMoveGo (tdx tdy : ℚ) (steps : ℕ) (alive stepOk : ℕ → Bool) :
    ℕ → ℕ → ℚ → List (ℚ × ℚ)
  | 0, _, _ => []
  | rem + 1, i, prev_t =>
    if !alive i then []
    else
      let t : ℚ := (i : ℚ) / steps
      let eased := smoothstep t
      let sdx := tdx * (eased - prev_t)
      let sdy := tdy * (eased - prev_t)
      if |sdx| < 1/10 ∧ |sdy| < 1/10 then
        naturalMoveGo tdx tdy steps alive stepOk rem (i + 1) eased
      else if stepOk i then
        (sdx, sdy) :: naturalMoveGo tdx tdy steps alive stepOk rem (i + 1) eased
      else
        naturalMoveGo tdx tdy steps alive stepOk rem (i + 1) eased

/-- `MouseMonitor.natural_move` (lines 316-390), as the list of relative
move events it injects. `cur` is the position returned by
`get_mouse_position` at entry (the `start_x, start_y` arguments are unused
by the source for the displacement), `tgt` the target. If the Euclidean
distance to the target is `< 1` px (squared form: `distSq < 1`) the method
returns immediately and injects nothing; otherwise it runs the eased
interpolation loop. -/
def naturalMoveEvents (cur tgt : ℚ × ℚ) (alive stepOk : ℕ → Bool) :
    List (ℚ × ℚ) :=
  let tdx := tgt.1 - cur.1
  let tdy := tgt.2 - cur.2
  if distSq tdx tdy < 1 then []
  else
    let steps := stepsForDistSq (distSq tdx tdy)
    naturalMoveGo tdx tdy steps alive stepOk steps 1 0

/-- The candidate actions of one driver iteration. `keyPress` exists only to
state what the driver never does; the source's candidate list has no key
action. -/
inductive DriverAction where
  | move
  | scroll
  | keyPress
  deriving DecidableEq, Repr

/-- The literal candidate list of `auto_move_mouse` (line 412):
`random.choice(['move', 'scroll'])`. -/
def actionChoices : List DriverAction := [DriverAction.move, DriverAction.scroll]

/-- A low-level input event injected by the driver. -/
inductive InjEvent where
  | relMove (dx dy : ℚ)
  | scrollEv (delta : ℤ) (horizontal : Bool)
  | keyEv (code : ℕ)
  deriving DecidableEq, Repr

/-- Whether an injected event is a key press. -/
def isKeyEv : InjEvent → Bool
  | .keyEv _ => true
  | _ => false

/-- The injected events of one iteration of `auto_move_mouse`
(lines 410-455). The randomly drawn `choice` comes from `actionChoices`;
on `'move'` the iteration computes a random target (`tgt` stands for the
`new_x, new_y` built from the random distance, angle and offsets) and runs
`natural_move` from the queried position `cur`; on the `else` branch it
injects one scroll of the randomly chosen amount and direction. -/
def autoMoveIterationEvents (choice : DriverAction) (cur tgt : ℚ × ℚ)
    (alive stepOk : ℕ → Bool) (scrollAmt : ℤ) (horiz : Bool) : List InjEvent :=
  match choice with
  | .move => (naturalMoveEvents cur tgt alive stepOk).map fun d => InjEvent.relMove d.1 d.2
  | _ => [InjEvent.scrollEv scrollAmt horiz]

/-- A concrete state 0.5 s after an auto-move finished at (100, 100), still
auto-moving, no motion in flight: used to exercise the echo filter. -/
def echoState : MMState :=
  { mmInit 0 with
    last_auto_position := some (100, 100)
    last_auto_move_time := some 10
    is_auto_moving := true }

/-- A concrete state with a simulation in progress and activity recorded at
time 0: exercises the click handler on a button-release event. -/
def clickRelState : MMState :=
  { mmInit 0 with is_auto_moving := true }

end MMA

namespace MMA

/-- With no recorded auto-move time the echo filter never fires. -/
theorem echoCheck_of_no_auto_time (s : MMState) (now x y : ℚ)
    (h : s.last_auto_move_time = none) : echoCheck s now x y = false := by
  simp [echoCheck, h]

/-- A move that passes the in-progress and echo filters performs the
genuine-movement update of `on_move`. -/
theorem on_move_genuine_eq (s : MMState) (now x y : ℚ)
    (hprog : s.is_auto_move_in_progress = false)
    (hecho : echoCheck s now x y = false) :
    on_move s now x y =
      { s with
        last_position := some (x, y)
        last_activity_time := now
        is_auto_moving := false } := by
  cases hb : s.is_auto_moving <;> simp [on_move, hprog, hecho, hb]

/-- A validity certificate for `l₁ ++ l₂` restricts to the prefix `l₁`. -/
theorem activeTrace_append (thr t0 : ℚ) (l₁ l₂ : List MMEvent)
    (h : activeTrace thr t0 (l₁ ++ l₂) = true) :
    activeTrace thr t0 l₁ = true := by
  induction l₁ generalizing t0 with
  | nil => rfl
  | cons e es ih =>
    cases e with
    | move t x y =>
      simp only [List.cons_append, activeTrace, Bool.and_eq_true] at h ⊢
      exact ⟨h.1, ih t h.2⟩
    | poll t =>
      simp only [List.cons_append, activeTrace, Bool.and_eq_true] at h ⊢
      exact ⟨h.1, ih t0 h.2⟩

/-- Invariant of the poll loop under continuous activity: starting from a
state that is not auto-moving, has no motion in flight, no recorded
auto-move time, threshold `thr` and last activity at `t0`, a trace that
always stays within `thr` of the latest genuine move keeps
`is_auto_moving` false. -/
theorem runTrace_active_invariant (thr : ℚ) (tr : List MMEvent) (t0 : ℚ)
    (s : MMState)
    (hthr : s.idle_threshold = thr) (hact : s.last_activity_time = t0)
    (hsim : s.is_auto_moving = false)
    (hprog : s.is_auto_move_in_progress = false)
    (hauto : s.last_auto_move_time = none)
    (htr : activeTrace thr t0 tr = true) :
    (runTrace s tr).is_auto_moving = false := by
  induction tr generalizing t0 s with
  | nil => simpa [runTrace] using hsim
  | cons e es ih =>
    cases e with
    | move t x y =>
      simp only [activeTrace, Bool.and_eq_true, decide_eq_true_eq] at htr
      obtain ⟨-, h3⟩ := htr
      rw [runTrace]
      have hstep : stepEvent s (.move t x y) =
          { s with
            last_position := some (x, y)
            last_activity_time := t
            is_auto_moving := false } := by
        simpa [stepEvent] using
          on_move_genuine_eq s t x y hprog
            (echoCheck_of_no_auto_time s t x y hauto)
      rw [hstep]
      exact ih t _ hthr rfl rfl hprog hauto h3
    | poll t =>
      simp only [activeTrace, Bool.and_eq_true, decide_eq_true_eq] at htr
      obtain ⟨⟨-, h2⟩, h3⟩ := htr
      rw [runTrace]
      have hstep : stepEvent s (.poll t) = s := by
        have hlt : ¬ (t - s.last_activity_time ≥ s.idle_threshold) := by
          rw [hact, hthr]; linarith
        simp [stepEvent, monitor_check, hlt, hsim]
      rw [hstep]
      exact ih t0 s hthr hact hsim hprog hauto h3

/-- C1: a move event arriving with no synthetic move in progress, less than
1.0 s after the last completed auto-move and with squared distance `< 100`
(Euclidean distance `< 10` px) from the last auto-move endpoint, is discarded
as an echo: the whole state — in particular `last_activity_time`,
`last_position` and `is_auto_moving` — is unchanged. -/
theorem on_move_echo_discarded (s : MMState) (now x y ax ay tA : ℚ)
    (hprog : s.is_auto_move_in_progress = false)
    (htime : s.last_auto_move_time = some tA)
    (hwin : now - tA < 1)
    (hpos : s.last_auto_position = some (ax, ay))
    (hnear : (x - ax) * (x - ax) + (y - ay) * (y - ay) < 100) :
    on_move s now x y = s := by
  have he : echoCheck s now x y = true := by
    simp only [echoCheck, htime, hpos, if_pos hwin]
    exact decide_eq_true hnear
  simp [on_move, hprog, he]

/-- Witness for C1: at `echoState`, a move to (103, 104) at time 10.5 —
0.5 s after the auto-move to (100, 100), 5 px away — is discarded. -/
theorem on_move_echo_discarded_witness :
    on_move echoState (21/2) 103 104 = echoState :=
  on_move_echo_discarded echoState (21/2) 103 104 100 100 10 rfl rfl
    (by norm_num) rfl (by norm_num)

/-- C2: a move event arriving with no synthetic move in progress that the
echo filter does not discard — in particular one at least 10 px from the
last auto-move endpoint, even inside the 1.0 s window — is classified as a
real manual movement: `last_position` becomes `(x, y)`,
`last_activity_time` becomes `now`, and `is_auto_moving` becomes false. -/
theorem on_move_genuine (s : MMState) (now x y : ℚ)
    (hprog : s.is_auto_move_in_progress = false)
    (hecho : echoCheck s now x y = false) :
    on_move s now x y =
      { s with
        last_position := some (x, y)
        last_activity_time := now
        is_auto_moving := false } :=
  on_move_genuine_eq s now x y hprog hecho

/-- Witness for C2: at `echoState`, a move to (110, 100) at time 10.5 —
inside the 1.0 s window but exactly 10 px from (100, 100) — is genuine. -/
theorem on_move_genuine_witness :
    on_move echoState (21/2) 110 100 =
      { echoState with
        last_position := some (110, 100)
        last_activity_time := 21/2
        is_auto_moving := false } :=
  on_move_genuine echoState (21/2) 110 100 rfl
    (by simp only [echoState, mmInit, echoCheck]; norm_num)

/-- C4: a `monitor_loop` poll at time `now` that observes
`now - last_activity_time ≥ idle_threshold` while not auto-moving starts the
simulation: `is_auto_moving` becomes true, `last_auto_position` and
`last_auto_move_time` are cleared, the auto-move thread ends up alive, and a
new thread is spawned exactly when none was alive. -/
theorem monitor_check_starts_simulation (s : MMState) (now : ℚ)
    (hidle : now - s.last_activity_time ≥ s.idle_threshold)
    (hsim : s.is_auto_moving = false) :
    monitor_check s now =
      { s with
        is_auto_moving := true
        last_auto_position := none
        last_auto_move_time := none
        thread_alive := true
        threads_spawned :=
          s.threads_spawned + (if s.thread_alive then 0 else 1) } := by
  cases ht : s.thread_alive <;>
    simp [monitor_check, if_pos hidle, hsim, start_auto_moving, ht]

/-- Witness for C4: from the initial state at time 0, a poll at time 6
(idle 6 s ≥ threshold 5 s) starts the simulation and spawns the thread. -/
theorem monitor_check_starts_simulation_witness :
    monitor_check (mmInit 0) 6 =
      { mmInit 0 with
        is_auto_moving := true
        last_auto_position := none
        last_auto_move_time := none
        thread_alive := true
        threads_spawned := (mmInit 0).threads_spawned + (if (mmInit 0).thread_alive then 0 else 1) } :=
  monitor_check_starts_simulation (mmInit 0) 6 (by norm_num [mmInit]) rfl

/-- C7: `natural_move` with a target whose Euclidean distance from the
queried current position is less than 1 px (squared distance `< 1`) is a
no-op: it injects zero relative-move events. -/
theorem natural_move_noop (cur tgt : ℚ × ℚ) (alive stepOk : ℕ → Bool)
    (hnear : distSq (tgt.1 - cur.1) (tgt.2 - cur.2) < 1) :
    naturalMoveEvents cur tgt alive stepOk = [] := by
  simp only [naturalMoveEvents, if_pos hnear]

/-- Witness for C7: a target 0.5 px away (squared distance 1/4) injects
nothing. -/
theorem natural_move_noop_witness :
    naturalMoveEvents (3, 4) (3 + 1/2, 4) (fun _ => true) (fun _ => true) = [] :=
  natural_move_noop (3, 4) (3 + 1/2, 4) (fun _ => true) (fun _ => true)
    (by norm_num [distSq])

/-- Counterexample to C3: `on_click` ignores a button-release event
(`pressed = false`). From `clickRelState` (simulating, last activity at 0),
the listener delivers a click callback at time 5 with `pressed = false`:
the state is unchanged — `is_auto_moving` stays true and
`last_activity_time` stays 0 instead of becoming 5. -/
theorem on_click_release_ignored :
    on_click clickRelState 5 1 2 0 false = clickRelState ∧
    clickRelState.is_auto_moving = true ∧
    clickRelState.last_activity_time = 0 :=
  ⟨rfl, rfl, rfl⟩

/-- C3 (amended): every click **press** event (`pressed = true`), every
scroll event, and every key-press event counts as genuine activity in the
same call: `last_activity_time` becomes `now` and `is_auto_moving` becomes
false; a click release event is ignored. -/
theorem activity_events_cancel_simulation (s : MMState)
    (now x y dx dy : ℚ) (b k : ℕ) :
    (on_click s now x y b true).last_activity_time = now ∧
    (on_click s now x y b true).is_auto_moving = false ∧
    (on_scroll s now x y dx dy).last_activity_time = now ∧
    (on_scroll s now x y dx dy).is_auto_moving = false ∧
    (on_key_press s now k).1.last_activity_time = now ∧
    (on_key_press s now k).1.is_auto_moving = false := by
  cases hb : s.is_auto_moving <;>
    simp [on_click, on_scroll, on_key_press, on_activity, hb]

/-- Counterexample to C5: the driver's candidate-action list — the literal
translation of `random.choice(['move', 'scroll'])` — contains no key-press,
so no execution of the driver loop ever chooses (or injects) a key press. -/
theorem driver_never_chooses_key :
    DriverAction.keyPress ∉ actionChoices ∧
    actionChoices = [DriverAction.move, DriverAction.scroll] :=
  ⟨by decide, rfl⟩

/-- C5 (amended): each driver iteration draws its action from
`['move', 'scroll']` only, and whichever action is drawn, the events it
injects contain no key press. -/
theorem driver_actions_move_or_scroll (choice : DriverAction)
    (hc : choice ∈ actionChoices) (cur tgt : ℚ × ℚ)
    (alive stepOk : ℕ → Bool) (amt : ℤ) (horiz : Bool) :
    (choice = DriverAction.move ∨ choice = DriverAction.scroll) ∧
    ((autoMoveIterationEvents choice cur tgt alive stepOk amt horiz).all
      fun e => !isKeyEv e) = true := by
  simp only [actionChoices, List.mem_cons, List.not_mem_nil, or_false] at hc
  rcases hc with rfl | rfl
  · refine ⟨Or.inl rfl, ?_⟩
    simp only [autoMoveIterationEvents, List.all_eq_true, List.mem_map]
    rintro d ⟨p, _, rfl⟩
    rfl
  · exact ⟨Or.inr rfl, rfl⟩

/-- Witness for C5 (amended): the `'move'` draw, on a 1-px diagonal hop,
injects no key press. -/
theorem driver_actions_move_or_scroll_witness :
    (DriverAction.move = DriverAction.move ∨
      DriverAction.move = DriverAction.scroll) ∧
    ((autoMoveIterationEvents DriverAction.move (0, 0) (30, 0)
        (fun _ => true) (fun _ => true) 1 false).all
      fun e => !isKeyEv e) = true :=
  driver_actions_move_or_scroll DriverAction.move (by decide) (0, 0) (30, 0)
    (fun _ => true) (fun _ => true) 1 false

/-- C9: if the injection primitive reports failure at step `i` of a
trajectory (`stepOk i = false`), that step contributes no event and the
loop continues with step `i + 1` and the advanced bookkeeping value
`smoothstep (i / steps)`; `move_mouse_relative` swallows the `SendInput`
exception and totally returns a success boolean (`.ok` on every path); and
a position-query exception is likewise swallowed, `get_mouse_position`
returning the recorded fallback instead of propagating it. -/
theorem injection_failure_skipped (api : Bool) (r : Except Unit ℕ)
    (pq : Except Unit (ℚ × ℚ)) (lp : Option (ℚ × ℚ))
    (tdx tdy : ℚ) (steps : ℕ) (alive stepOk : ℕ → Bool) (rem i : ℕ)
    (prev_t : ℚ) (halive : alive i = true) (hfail : stepOk i = false) :
    (move_mouse_relative api r).isOk = true ∧
    get_mouse_position true pq (Except.error ()) lp = lp.getD (0, 0) ∧
    naturalMoveGo tdx tdy steps alive stepOk (rem + 1) i prev_t =
      naturalMoveGo tdx tdy steps alive stepOk rem (i + 1)
        (smoothstep ((i : ℚ) / steps)) := by
  refine ⟨?_, ?_, ?_⟩
  · cases api <;> cases r <;> rfl
  · cases lp <;> rfl
  · rw [naturalMoveGo]
    simp only [halive, Bool.not_true, Bool.false_eq_true, if_false, hfail]
    split <;> rfl

/-- Witness for C9: with the API unavailable (`SendInput` raising),
`move_mouse_relative` still returns a boolean, and a trajectory whose first
step fails continues from the second step. -/
theorem injection_failure_skipped_witness :
    (move_mouse_relative false (Except.error ())).isOk = true ∧
    get_mouse_position true (Except.ok (1, 2)) (Except.error ())
      (some (5, 7)) = (some ((5 : ℚ), (7 : ℚ))).getD (0, 0) ∧
    naturalMoveGo 100 0 8 (fun _ => true) (fun _ => false) 8 1 0 =
      naturalMoveGo 100 0 8 (fun _ => true) (fun _ => false) 7 2
        (smoothstep ((1 : ℚ) / 8)) :=
  injection_failure_skipped false (Except.error ()) (Except.ok (1, 2))
    (some (5, 7)) 100 0 8 (fun _ => true) (fun _ => false) 7 1 0 rfl rfl

/-- Counterexample to C10: in the pynput fallback path (Windows API
unavailable) an exception while reading the cursor position returns (0, 0)
even though `last_position = (5, 7)` is recorded, contradicting the claim
that failures fall back to `last_position` whenever one is recorded. -/
theorem get_mouse_position_fallback_ignores_last :
    get_mouse_position false (Except.error ()) (Except.ok (true, 0, 0))
      (some (5, 7)) = (0, 0) ∧
    ((0 : ℚ), (0 : ℚ)) ≠ ((5 : ℚ), (7 : ℚ)) :=
  ⟨rfl, by norm_num [Prod.ext_iff]⟩

/-- C10 (amended): `get_mouse_position` totally returns a coordinate pair.
In the Windows-API path it returns the reported position on success and
`last_position` (or (0, 0) when none is recorded) when `GetCursorPos`
returns false or raises; in the pynput fallback path (API unavailable) it
returns the queried position on success and (0, 0) on exception, without
consulting `last_position`. -/
theorem get_mouse_position_cases (pq : Except Unit (ℚ × ℚ))
    (wq : Except Unit (Bool × ℚ × ℚ)) (lp : Option (ℚ × ℚ)) (x y : ℚ) :
    get_mouse_position true pq (Except.ok (true, x, y)) lp = (x, y) ∧
    get_mouse_position true pq (Except.ok (false, x, y)) lp = lp.getD (0, 0) ∧
    get_mouse_position true pq (Except.error ()) lp = lp.getD (0, 0) ∧
    get_mouse_position false (Except.ok (x, y)) wq lp = (x, y) ∧
    get_mouse_position false (Except.error ()) wq lp = (0, 0) := by
  cases lp <;> simp [get_mouse_position, Option.getD]

/-- Counterexample to C6: with the code's threshold of 5 s, the genuine
moves of the trace below are spaced 10 s ≥ 5 s apart, yet after the poll at
time 6 — a reachable state of the poll loop — the system is simulating. -/
theorem spaced_moves_still_simulate :
    movesSpacedGe 5 none
      [MMEvent.move 0 3 4, MMEvent.poll 6, MMEvent.move 10 3 4] = true ∧
    (mmInit 0).idle_threshold = 5 ∧
    (runTrace (mmInit 0)
      [MMEvent.move 0 3 4, MMEvent.poll 6]).is_auto_moving = true := by
  refine ⟨?_, rfl, ?_⟩
  · simp only [movesSpacedGe, Bool.and_eq_true, decide_eq_true_eq]
    norm_num
  · simp only [runTrace, stepEvent]
    simp only [mmInit, on_move, echoCheck]
    norm_num
    simp only [monitor_check, start_auto_moving]
    norm_num

/-- C6 (amended): for every sequence of genuine move events spaced less
than idle_threshold (5 s) apart, with every monitor poll likewise occurring
less than idle_threshold after the latest move, the system never enters
SIMULATING: `is_auto_moving` is false at every reachable state of the poll
loop (i.e. after every prefix of any valid trace). -/
theorem active_user_never_simulating (t0 : ℚ) (tr rest : List MMEvent)
    (htr : activeTrace 5 t0 (tr ++ rest) = true) :
    (runTrace (mmInit t0) tr).is_auto_moving = false :=
  runTrace_active_invariant 5 tr t0 (mmInit t0) rfl rfl rfl rfl rfl
    (activeTrace_append 5 t0 tr rest htr)

/-- Witness for C6 (amended): moves at 1, 4 and polls at 3, 8, all within
5 s of the latest move, leave the system not simulating. -/
theorem active_user_never_simulating_witness :
    (runTrace (mmInit 0)
      [MMEvent.move 1 2 3, MMEvent.poll 3, MMEvent.move 4 5 6]).is_auto_moving
      = false :=
  active_user_never_simulating 0
    [MMEvent.move 1 2 3, MMEvent.poll 3, MMEvent.move 4 5 6]
    [MMEvent.poll 8]
    (by simp only [activeTrace, List.cons_append, List.nil_append,
          Bool.and_eq_true, decide_eq_true_eq]; norm_num)

/-- C8: for a completed `steps ≥ 1` trajectory the per-step fractional
progress values `stepPortion` — which every step contributes, including
dead-zone-skipped ones, since `prev_t = eased_t` precedes the dead-zone
test — sum to exactly 1, so the eased interpolation covers the whole
start→end displacement; and the ease curve satisfies `smoothstep 0 = 0`,
`smoothstep 1 = 1` and is monotonically non-decreasing on `[0, 1]`. -/
theorem smoothstep_coverage (n : ℕ) (a b : ℚ) (hn : 1 ≤ n)
    (ha : 0 ≤ a) (hab : a ≤ b) (hb : b ≤ 1) :
    (∑ i in Finset.Icc 1 n, stepPortion n i) = 1 ∧
    smoothstep 0 = 0 ∧ smoothstep 1 = 1 ∧ smoothstep a ≤ smoothstep b := by
  have ha1 : a ≤ 1 := hab.trans hb
  have hb0 : 0 ≤ b := ha.trans hab
  refine ⟨?_, by norm_num [smoothstep], by norm_num [smoothstep], ?_⟩
  · have h0 : (n : ℚ) ≠ 0 := Nat.cast_ne_zero.2 (by omega)
    rw [← Nat.Ico_succ_right, Finset.sum_Ico_eq_sum_range]
    have hcong : ∀ i ∈ Finset.range (n + 1 - 1), stepPortion n (1 + i) =
        smoothstep (((i + 1 : ℕ) : ℚ) / n) - smoothstep (((i : ℕ) : ℚ) / n) := by
      intro i _
      have h1 : 1 + i - 1 = i := by omega
      have h2 : 1 + i = i + 1 := by omega
      rw [stepPortion, h1, h2]
    rw [Finset.sum_congr rfl hcong,
      Finset.sum_range_sub (fun i => smoothstep ((i : ℚ) / n))]
    simp only [Nat.add_sub_cancel, Nat.cast_zero, zero_div, div_self h0]
    norm_num [smoothstep]
  · have key : smoothstep b - smoothstep a =
        (b - a) * (3 * a * (1 - a) + 3 * b * (1 - b) + (a - b) ^ 2) := by
      rw [smoothstep, smoothstep]; ring
    nlinarith [mul_nonneg (sub_nonneg.2 hab)
        (mul_nonneg (mul_nonneg (by norm_num : (0:ℚ) ≤ 3) ha) (sub_nonneg.2 ha1)),
      mul_nonneg (sub_nonneg.2 hab)
        (mul_nonneg (mul_nonneg (by norm_num : (0:ℚ) ≤ 3) hb0) (sub_nonneg.2 hb)),
      mul_nonneg (sub_nonneg.2 hab) (sq_nonneg (a - b))]

/-- Witness for C8: the 8-step trajectory bucket fully covers the
displacement, and the ease curve is monotone from 1/4 to 3/4. -/
theorem smoothstep_coverage_witness :
    (∑ i in Finset.Icc 1 8, stepPortion 8 i) = 1 ∧
    smoothstep 0 = 0 ∧ smoothstep 1 = 1 ∧
    smoothstep (1/4) ≤ smoothstep (3/4) :=
  smoothstep_coverage 8 (1/4) (3/4) (by norm_num) (by norm_num)
    (by norm_num) (by norm_num)

end MMA
